import Mathlib

/-!
# Verification of the FastAPI request-body-models demo

Shallow embedding of the three-file demo service (`src/models.py`,
`src/main.py`): a schema-validated user-registration endpoint backed by a
process-local list `fake_db`, plus a listing endpoint and a liveness
endpoint.

Modelling conventions:
* JSON objects (request payloads, stored records, response bodies) are
  association lists `List (String × Value)`; lookup takes the first
  occurrence of a key, as Python dict / JSON object semantics give one
  binding per key.
* Wall-clock time (`datetime.now()`) is an explicit `Nat` parameter passed
  to the registration handler.
* The spec's field names `joined_at` and `password_digest` correspond to
  the source's `join_date` and `hashed_password`; the embedding keeps the
  source names.
-/

/-- A JSON-ish value: a string, a timestamp, or null. -/
inductive Value where
  | vStr : String → Value
  | vTime : Nat → Value
  | vNull : Value
deriving DecidableEq, Repr

/-- A JSON object / Python dict, as an association list. -/
abbrev Obj := List (String × Value)

/-- First-occurrence key lookup, matching JSON-object / dict semantics. -/
def Obj.get : Obj → String → Option Value
  | [], _ => none
  | (k, v) :: rest, key => if k = key then some v else Obj.get rest key

/-- Lookup expecting a string value; `none` if absent or not a string. -/
def Obj.getStr (o : Obj) (k : String) : Option String :=
  match o.get k with
  | some (Value.vStr s) => some s
  | _ => none

/-- Modelled from the spec: pydantic's `EmailStr` validator is library code
not present in `src/`; the spec describes it as "must match standard email
address grammar (local-part@domain)". Accept exactly the strings of the
form `local-part@domain` with both parts non-empty. -/
def isEmail (s : String) : Bool :=
  let cs := s.toList
  cs.count '@' == 1 && cs.head? != some '@' && cs.getLast? != some '@'

/-- `src/models.py`, `UserCreate`: the validated request body.
`username`, `email`, `password` are required strings (`email` an
`EmailStr`); `full_name` is `Optional[str] = None`. -/
structure UserCreate where
  username : String
  email : String
  password : String
  full_name : Option String
deriving DecidableEq, Repr

/-- Validation of one required plain-string field (`username: str`,
`password: str` in `UserCreate`): an error entry for the field when it is
absent or not a string. -/
def checkStr (payload : Obj) (k : String) : List String :=
  match payload.get k with
  | some (Value.vStr _) => []
  | _ => [k]

/-- Validation of the required `email: EmailStr` field of `UserCreate`:
an error entry when the field is absent, not a string, or fails the email
grammar. -/
def checkEmailField (payload : Obj) : List String :=
  match payload.get "email" with
  | some (Value.vStr e) => if isEmail e then [] else ["email"]
  | _ => ["email"]

/-- Validation of the optional `full_name: Optional[str] = None` field of
`UserCreate`: absence and null are fine; a present non-string, non-null
value is an error. -/
def checkFullName (payload : Obj) : List String :=
  match payload.get "full_name" with
  | some (Value.vTime _) => ["full_name"]
  | _ => []

/-- Per-field validation errors for a payload against `UserCreate`, in
field-declaration order, as pydantic reports one entry per offending
field. -/
def fieldErrors (payload : Obj) : List String :=
  checkStr payload "username" ++ checkEmailField payload ++
    checkStr payload "password" ++ checkFullName payload

/-- Pydantic validation of a payload against `UserCreate`: either the
validated value object, or the list of offending fields (surfaced by
FastAPI as a 422 with per-field detail). Extra keys in the payload are
ignored, as pydantic ignores unknown fields by default. -/
def UserCreate.validate (payload : Obj) : Except (List String) UserCreate :=
  let errs := fieldErrors payload
  if errs.isEmpty then
    Except.ok
      { username := (payload.getStr "username").getD ""
        email := (payload.getStr "email").getD ""
        password := (payload.getStr "password").getD ""
        full_name := payload.getStr "full_name" }
  else
    Except.error errs

/-- The server's mutable state: the process-local list `fake_db` from
`src/main.py`. -/
structure ServerState where
  fake_db : List Obj
deriving DecidableEq, Repr

/-- The `db_user` dict built by `create_user` in `src/main.py`: the
validated fields copied verbatim, `join_date` stamped with the current
time, and `hashed_password` set to `f"hashed_{user_data.password}"`. -/
def dbUserOf (u : UserCreate) (now : Nat) : Obj :=
  [("username", Value.vStr u.username),
   ("email", Value.vStr u.email),
   ("full_name", match u.full_name with
     | some f => Value.vStr f
     | none => Value.vNull),
   ("join_date", Value.vTime now),
   ("hashed_password", Value.vStr ("hashed_" ++ u.password))]

/-- `src/models.py`, `UserOut` applied as `response_model`: the returned
record is shaped to exactly the fields `username`, `email`, `full_name`,
`join_date` declared on `UserOut`; no other key of the input survives. -/
def UserOut.shape (o : Obj) : Obj :=
  [("username", (o.get "username").getD Value.vNull),
   ("email", (o.get "email").getD Value.vNull),
   ("full_name", (o.get "full_name").getD Value.vNull),
   ("join_date", (o.get "join_date").getD Value.vNull)]

/-- Outcome of `POST /users/`: either 201 with the shaped body, or a 422
validation error carrying the offending field names. -/
inductive CreateResult where
  | created : Obj → CreateResult
  | validationError : List String → CreateResult
deriving DecidableEq, Repr

/-- `src/main.py`, `create_user` together with FastAPI's body validation:
validate the payload against `UserCreate` (a failure yields a 422 and no
state change); on success build `db_user`, append it to `fake_db`, and
return it shaped through `UserOut`. -/
def create_user (payload : Obj) (now : Nat) (st : ServerState) :
    CreateResult × ServerState :=
  match UserCreate.validate payload with
  | Except.error errs => (CreateResult.validationError errs, st)
  | Except.ok u =>
      let db_user := dbUserOf u now
      (CreateResult.created (UserOut.shape db_user),
       { fake_db := st.fake_db ++ [db_user] })

/-- `src/main.py`, `root` (`GET /`): the constant liveness message; the
state is untouched. -/
def root (st : ServerState) : Obj × ServerState :=
  ([("message", Value.vStr "FastAPI Server is running!")], st)

/-- `src/main.py`, `get_all_users` (`GET /users/`): returns `fake_db`
itself, unshaped; the state is untouched. -/
def get_all_users (st : ServerState) : List Obj × ServerState :=
  (st.fake_db, st)

/-- Run a sequence of registration requests (payload, time of arrival)
against a starting state, threading the state through `create_user`. -/
def registerAll (reqs : List (Obj × Nat)) (st : ServerState) : ServerState :=
  reqs.foldl (fun s r => (create_user r.1 r.2 s).2) st

/-- The `join_date` timestamp stored on a record (0 if absent, which never
happens for records built by `create_user`). -/
def joinDateOf (o : Obj) : Nat :=
  match o.get "join_date" with
  | some (Value.vTime t) => t
  | _ => 0

/-- The valid example payload from the spec's scenario and `src/test_api.py`. -/
def johnPayload : Obj :=
  [("username", Value.vStr "johndoe"),
   ("email", Value.vStr "john@example.com"),
   ("password", Value.vStr "securepassword123"),
   ("full_name", Value.vStr "John Doe")]

/-- A valid payload that omits the optional `full_name`. -/
def janePayload : Obj :=
  [("username", Value.vStr "jane"),
   ("email", Value.vStr "jane@example.com"),
   ("password", Value.vStr "pw2")]

/-- The invalid payload from `src/test_api.py`: `username` is missing. -/
def missingUsernamePayload : Obj :=
  [("email", Value.vStr "john@example.com"),
   ("password", Value.vStr "securepassword123")]

/-- A payload whose `email` is not email-shaped. -/
def badEmailPayload : Obj :=
  [("username", Value.vStr "johndoe"),
   ("email", Value.vStr "not-an-email"),
   ("password", Value.vStr "pw")]

/-- A payload with an empty-string `username`: `username: str` puts no
non-emptiness constraint on it. -/
def emptyUsernamePayload : Obj :=
  [("username", Value.vStr ""),
   ("email", Value.vStr "a@b.com"),
   ("password", Value.vStr "pw")]

example :
    UserCreate.validate
      [("username", Value.vStr "johndoe"),
       ("email", Value.vStr "john@example.com"),
       ("password", Value.vStr "securepassword123"),
       ("full_name", Value.vStr "John Doe")]
    = Except.ok ⟨"johndoe", "john@example.com", "securepassword123", some "John Doe"⟩ := by
  rfl

example :
    UserCreate.validate
      [("email", Value.vStr "john@example.com"),
       ("password", Value.vStr "securepassword123")]
    = Except.error ["username"] := by
  rfl

example : isEmail "not-an-email" = false := by decide
example : isEmail "john@example.com" = true := by decide

/-! ## Validation lemmas -/

lemma checkStr_eq_nil_iff (payload : Obj) (k : String) :
    checkStr payload k = [] ↔ ∃ s, payload.get k = some (Value.vStr s) := by
  unfold checkStr
  rcases h : payload.get k with _ | (s | t | _) <;> simp

lemma checkEmailField_eq_nil_iff (payload : Obj) :
    checkEmailField payload = [] ↔
      ∃ e, payload.get "email" = some (Value.vStr e) ∧ isEmail e = true := by
  unfold checkEmailField
  rcases h : payload.get "email" with _ | (s | t | _) <;> simp

lemma validate_eq_error (payload : Obj) (h : fieldErrors payload ≠ []) :
    UserCreate.validate payload = Except.error (fieldErrors payload) := by
  unfold UserCreate.validate
  simp only [List.isEmpty_iff, if_neg h]

lemma username_mem_fieldErrors (payload : Obj) (h : payload.get "username" = none) :
    "username" ∈ fieldErrors payload := by
  simp [fieldErrors, checkStr, h]

lemma email_mem_fieldErrors_of_none (payload : Obj) (h : payload.get "email" = none) :
    "email" ∈ fieldErrors payload := by
  simp [fieldErrors, checkEmailField, h]

lemma email_mem_fieldErrors_of_bad (payload : Obj) (e : String)
    (h : payload.get "email" = some (Value.vStr e)) (hbad : isEmail e = false) :
    "email" ∈ fieldErrors payload := by
  simp [fieldErrors, checkEmailField, h, hbad]

lemma password_mem_fieldErrors (payload : Obj) (h : payload.get "password" = none) :
    "password" ∈ fieldErrors payload := by
  simp [fieldErrors, checkStr, h]

lemma fieldErrors_eq_nil_iff (payload : Obj) :
    fieldErrors payload = [] ↔
      checkStr payload "username" = [] ∧ checkEmailField payload = [] ∧
        checkStr payload "password" = [] ∧ checkFullName payload = [] := by
  simp [fieldErrors, List.append_eq_nil]

lemma validate_ok_spec (payload : Obj) (u : UserCreate)
    (h : UserCreate.validate payload = Except.ok u) :
    payload.get "username" = some (Value.vStr u.username) ∧
    payload.get "email" = some (Value.vStr u.email) ∧
    isEmail u.email = true ∧
    payload.get "password" = some (Value.vStr u.password) ∧
    u.full_name = payload.getStr "full_name" := by
  unfold UserCreate.validate at h
  by_cases hE : fieldErrors payload = []
  · rw [hE] at h
    simp only [List.isEmpty_nil, if_true] at h
    obtain ⟨hcu, hce, hcp, hcf⟩ := (fieldErrors_eq_nil_iff payload).1 hE
    obtain ⟨su, hsu⟩ := (checkStr_eq_nil_iff payload "username").1 hcu
    obtain ⟨se, hse, hem⟩ := (checkEmailField_eq_nil_iff payload).1 hce
    obtain ⟨sp, hsp⟩ := (checkStr_eq_nil_iff payload "password").1 hcp
    cases h
    refine ⟨?_, ?_, ?_, ?_, rfl⟩ <;>
      simp [Obj.getStr, hsu, hse, hsp, hem]
  · rw [if_neg (by simpa using hE)] at h
    cases h

lemma validate_ok_of_parts (payload : Obj) (su se sp : String)
    (hu : payload.get "username" = some (Value.vStr su))
    (he : payload.get "email" = some (Value.vStr se))
    (hem : isEmail se = true)
    (hp : payload.get "password" = some (Value.vStr sp))
    (hf : payload.get "full_name" = none) :
    UserCreate.validate payload = Except.ok ⟨su, se, sp, none⟩ := by
  unfold UserCreate.validate fieldErrors checkStr checkEmailField checkFullName
    Obj.getStr
  rw [hu, he, hp, hf]
  simp [hem]

/-! ## Record and shaping lemmas -/

lemma joinDateOf_dbUserOf (u : UserCreate) (t : Nat) :
    joinDateOf (dbUserOf u t) = t := by
  cases hf : u.full_name <;> simp [joinDateOf, dbUserOf, Obj.get, hf]

lemma shape_dbUserOf (u : UserCreate) (t : Nat) :
    UserOut.shape (dbUserOf u t) =
      [("username", Value.vStr u.username),
       ("email", Value.vStr u.email),
       ("full_name", match u.full_name with
         | some f => Value.vStr f
         | none => Value.vNull),
       ("join_date", Value.vTime t)] := by
  cases hf : u.full_name <;> simp [UserOut.shape, dbUserOf, Obj.get, hf]

lemma create_user_ok (payload : Obj) (now : Nat) (st : ServerState)
    (u : UserCreate) (h : UserCreate.validate payload = Except.ok u) :
    create_user payload now st =
      (CreateResult.created (UserOut.shape (dbUserOf u now)),
       ⟨st.fake_db ++ [dbUserOf u now]⟩) := by
  simp [create_user, h]

lemma create_user_error (payload : Obj) (now : Nat) (st : ServerState)
    (errs : List String) (h : UserCreate.validate payload = Except.error errs) :
    create_user payload now st = (CreateResult.validationError errs, st) := by
  simp [create_user, h]

lemma create_user_created_inv (payload : Obj) (now : Nat) (st : ServerState)
    (body : Obj) (h : (create_user payload now st).1 = CreateResult.created body) :
    ∃ u, UserCreate.validate payload = Except.ok u ∧
      body = UserOut.shape (dbUserOf u now) ∧
      (create_user payload now st).2 = ⟨st.fake_db ++ [dbUserOf u now]⟩ := by
  rcases hv : UserCreate.validate payload with errs | u
  · rw [create_user_error payload now st errs hv] at h
    cases h
  · rw [create_user_ok payload now st u hv] at h ⊢
    cases h
    exact ⟨u, rfl, rfl, rfl⟩

/-! ## Sequences of registrations -/

lemma registerAll_spec (reqs : List (Obj × Nat)) (st : ServerState)
    (hok : ∀ r ∈ reqs, ∃ u, UserCreate.validate r.1 = Except.ok u) :
    ∃ recs : List Obj,
      (registerAll reqs st).fake_db = st.fake_db ++ recs ∧
      List.Forall₂
        (fun r o => ∃ u, UserCreate.validate r.1 = Except.ok u ∧ o = dbUserOf u r.2)
        reqs recs := by
  induction reqs generalizing st with
  | nil => exact ⟨[], by simp [registerAll], List.Forall₂.nil⟩
  | cons r rest ih =>
      obtain ⟨u, hu⟩ := hok r (List.mem_cons_self r rest)
      have hstep : registerAll (r :: rest) st =
          registerAll rest ⟨st.fake_db ++ [dbUserOf u r.2]⟩ := by
        simp [registerAll, create_user_ok r.1 r.2 st u hu]
      obtain ⟨recs, hdb, hF⟩ :=
        ih ⟨st.fake_db ++ [dbUserOf u r.2]⟩
          (fun x hx => hok x (List.mem_cons_of_mem r hx))
      refine ⟨dbUserOf u r.2 :: recs, ?_, List.Forall₂.cons ⟨u, hu, rfl⟩ hF⟩
      rw [hstep, hdb]
      simp

lemma forall₂_map_joinDateOf (reqs : List (Obj × Nat)) (recs : List Obj)
    (hF : List.Forall₂
      (fun r o => ∃ u, UserCreate.validate r.1 = Except.ok u ∧ o = dbUserOf u r.2)
      reqs recs) :
    recs.map joinDateOf = reqs.map Prod.snd := by
  induction hF with
  | nil => rfl
  | cons h htail ih =>
      obtain ⟨u, _, rfl⟩ := h
      simp [ih, joinDateOf_dbUserOf]

/-! ## Unknown extra keys -/

lemma Obj.get_append_singleton_ne (o : Obj) (k key : String) (v : Value)
    (hne : k ≠ key) :
    Obj.get (o ++ [(k, v)]) key = Obj.get o key := by
  induction o with
  | nil => simp [Obj.get, hne]
  | cons p rest ih =>
      rcases p with ⟨k', v'⟩
      by_cases hk : k' = key <;> simp [Obj.get, hk, ih]

lemma validate_append_unknown (payload : Obj) (k : String) (v : Value)
    (h1 : k ≠ "username") (h2 : k ≠ "email") (h3 : k ≠ "password")
    (h4 : k ≠ "full_name") :
    UserCreate.validate (payload ++ [(k, v)]) = UserCreate.validate payload := by
  unfold UserCreate.validate fieldErrors checkStr checkEmailField checkFullName
    Obj.getStr
  rw [Obj.get_append_singleton_ne payload k "username" v h1,
      Obj.get_append_singleton_ne payload k "email" v h2,
      Obj.get_append_singleton_ne payload k "password" v h3,
      Obj.get_append_singleton_ne payload k "full_name" v h4]

/-! ## Claim theorems -/

/-- C1: every successful registration's response, shaped through `UserOut`,
contains exactly the fields `username`, `email`, `full_name`, `join_date`
(the spec's `joined_at`), and contains neither the submitted plaintext
password nor the derived digest field. -/
theorem C1_output_exact_fields_and_redaction (payload : Obj) (now : Nat)
    (st : ServerState) (body : Obj)
    (h : (create_user payload now st).1 = CreateResult.created body) :
    body.map Prod.fst = ["username", "email", "full_name", "join_date"] ∧
    body.get "password" = none ∧
    body.get "hashed_password" = none := by
  obtain ⟨u, hv, hbody, _⟩ := create_user_created_inv payload now st body h
  subst hbody
  rw [shape_dbUserOf]
  simp [Obj.get]

/-- Witness for C1 at the spec's example payload. -/
theorem C1_witness :
    ([("username", Value.vStr "johndoe"),
      ("email", Value.vStr "john@example.com"),
      ("full_name", Value.vStr "John Doe"),
      ("join_date", Value.vTime 3)] : Obj).map Prod.fst
        = ["username", "email", "full_name", "join_date"] ∧
    Obj.get [("username", Value.vStr "johndoe"),
      ("email", Value.vStr "john@example.com"),
      ("full_name", Value.vStr "John Doe"),
      ("join_date", Value.vTime 3)] "password" = none ∧
    Obj.get [("username", Value.vStr "johndoe"),
      ("email", Value.vStr "john@example.com"),
      ("full_name", Value.vStr "John Doe"),
      ("join_date", Value.vTime 3)] "hashed_password" = none :=
  C1_output_exact_fields_and_redaction johnPayload 3 ⟨[]⟩ _ (by rfl)

/-- C2: a payload missing `username`, `email`, or `password` makes
registration fail with a non-empty per-field validation error naming each
missing field and leaves the store untouched; every successful call
appends exactly one record. -/
theorem C2_validation_completeness_and_single_append (payload : Obj)
    (now : Nat) (st : ServerState) :
    ((payload.get "username" = none ∨ payload.get "email" = none ∨
        payload.get "password" = none) →
      ∃ errs, (create_user payload now st).1 = CreateResult.validationError errs ∧
        errs ≠ [] ∧
        (payload.get "username" = none → "username" ∈ errs) ∧
        (payload.get "email" = none → "email" ∈ errs) ∧
        (payload.get "password" = none → "password" ∈ errs) ∧
        (create_user payload now st).2 = st) ∧
    (∀ body, (create_user payload now st).1 = CreateResult.created body →
      ∃ rec, ((create_user payload now st).2).fake_db = st.fake_db ++ [rec]) := by
  constructor
  · intro hmiss
    have hne : fieldErrors payload ≠ [] := by
      rcases hmiss with h | h | h
      · exact List.ne_nil_of_mem (username_mem_fieldErrors payload h)
      · exact List.ne_nil_of_mem (email_mem_fieldErrors_of_none payload h)
      · exact List.ne_nil_of_mem (password_mem_fieldErrors payload h)
    rw [create_user_error payload now st _ (validate_eq_error payload hne)]
    exact ⟨fieldErrors payload, rfl, hne,
      fun h => username_mem_fieldErrors payload h,
      fun h => email_mem_fieldErrors_of_none payload h,
      fun h => password_mem_fieldErrors payload h, rfl⟩
  · intro body h
    obtain ⟨u, _, _, h2⟩ := create_user_created_inv payload now st body h
    exact ⟨dbUserOf u now, by rw [h2]⟩

/-- Witness for C2 at the missing-`username` payload of `src/test_api.py`. -/
theorem C2_witness :
    ∃ errs, (create_user missingUsernamePayload 0 ⟨[]⟩).1
        = CreateResult.validationError errs ∧
      errs ≠ [] ∧
      (missingUsernamePayload.get "username" = none → "username" ∈ errs) ∧
      (missingUsernamePayload.get "email" = none → "email" ∈ errs) ∧
      (missingUsernamePayload.get "password" = none → "password" ∈ errs) ∧
      (create_user missingUsernamePayload 0 ⟨[]⟩).2 = ⟨[]⟩ :=
  (C2_validation_completeness_and_single_append missingUsernamePayload 0 ⟨[]⟩).1
    (Or.inl (by rfl))

/-- C3: after a sequence of successful registrations with non-decreasing
arrival times, `get_all_users` returns the previous store contents
followed by exactly one record per request, in submission order, with
non-decreasing `join_date`; nothing is reordered or removed. -/
theorem C3_append_only_ordering (reqs : List (Obj × Nat)) (st : ServerState)
    (hok : ∀ r ∈ reqs, ∃ u, UserCreate.validate r.1 = Except.ok u)
    (hmono : List.Chain' (· ≤ ·) (reqs.map Prod.snd)) :
    ∃ recs : List Obj,
      (get_all_users (registerAll reqs st)).1 = st.fake_db ++ recs ∧
      recs.length = reqs.length ∧
      List.Forall₂
        (fun r o => ∃ u, UserCreate.validate r.1 = Except.ok u ∧ o = dbUserOf u r.2)
        reqs recs ∧
      List.Chain' (· ≤ ·) (recs.map joinDateOf) := by
  obtain ⟨recs, hdb, hF⟩ := registerAll_spec reqs st hok
  refine ⟨recs, ?_, hF.length_eq.symm, hF, ?_⟩
  · simpa [get_all_users] using hdb
  · rw [forall₂_map_joinDateOf reqs recs hF]
    exact hmono

/-- Witness for C3: two registrations at times 1 and 2. -/
theorem C3_witness :
    ∃ recs : List Obj,
      (get_all_users (registerAll [(johnPayload, 1), (janePayload, 2)] ⟨[]⟩)).1
          = [] ++ recs ∧
      recs.length = 2 ∧
      List.Forall₂
        (fun r o => ∃ u, UserCreate.validate r.1 = Except.ok u ∧ o = dbUserOf u r.2)
        [(johnPayload, 1), (janePayload, 2)] recs ∧
      List.Chain' (· ≤ ·) (recs.map joinDateOf) :=
  C3_append_only_ordering [(johnPayload, 1), (janePayload, 2)] ⟨[]⟩
    (by
      intro r hr
      simp only [List.mem_cons, List.not_mem_nil, or_false] at hr
      rcases hr with rfl | rfl
      · exact ⟨⟨"johndoe", "john@example.com", "securepassword123",
          some "John Doe"⟩, by rfl⟩
      · exact ⟨⟨"jane", "jane@example.com", "pw2", none⟩, by rfl⟩)
    (by norm_num [List.chain'_cons, List.chain'_singleton])

/-- C4: a payload whose `email` value fails the email grammar is rejected
with a validation error whose per-field detail names `email`, and the
store is unchanged. -/
theorem C4_bad_email_rejected (payload : Obj) (now : Nat) (st : ServerState)
    (e : String)
    (he : payload.get "email" = some (Value.vStr e))
    (hbad : isEmail e = false) :
    ∃ errs, (create_user payload now st).1 = CreateResult.validationError errs ∧
      "email" ∈ errs ∧ (create_user payload now st).2 = st := by
  have hmem := email_mem_fieldErrors_of_bad payload e he hbad
  rw [create_user_error payload now st _
    (validate_eq_error payload (List.ne_nil_of_mem hmem))]
  exact ⟨fieldErrors payload, rfl, hmem, rfl⟩

/-- Witness for C4 at the `"not-an-email"` payload. -/
theorem C4_witness :
    ∃ errs, (create_user badEmailPayload 0 ⟨[]⟩).1
        = CreateResult.validationError errs ∧
      "email" ∈ errs ∧ (create_user badEmailPayload 0 ⟨[]⟩).2 = ⟨[]⟩ :=
  C4_bad_email_rejected badEmailPayload 0 ⟨[]⟩ "not-an-email" (by rfl) (by decide)

/-- C5 counterexample: registering with an empty-string `username`
succeeds (`username: str` enforces no non-emptiness) and stores a record
whose `username` is `""`, refuting the claim that no registration can
place an empty-username record in the store. -/
theorem C5_counterexample :
    (create_user emptyUsernamePayload 0 ⟨[]⟩).1
        = CreateResult.created
            [("username", Value.vStr ""), ("email", Value.vStr "a@b.com"),
             ("full_name", Value.vNull), ("join_date", Value.vTime 0)] ∧
    (create_user emptyUsernamePayload 0 ⟨[]⟩).2.fake_db
        = [[("username", Value.vStr ""), ("email", Value.vStr "a@b.com"),
            ("full_name", Value.vNull), ("join_date", Value.vTime 0),
            ("hashed_password", Value.vStr "hashed_pw")]] :=
  ⟨rfl, rfl⟩

lemma store_records_wellformed (reqs : List (Obj × Nat)) (st : ServerState)
    (hst : ∀ o ∈ st.fake_db,
      (∃ s, o.get "username" = some (Value.vStr s)) ∧
      (∃ e, o.get "email" = some (Value.vStr e) ∧ isEmail e = true)) :
    ∀ o ∈ (registerAll reqs st).fake_db,
      (∃ s, o.get "username" = some (Value.vStr s)) ∧
      (∃ e, o.get "email" = some (Value.vStr e) ∧ isEmail e = true) := by
  induction reqs generalizing st with
  | nil => simpa [registerAll] using hst
  | cons r rest ih =>
      rcases hv : UserCreate.validate r.1 with errs | u
      · have hstep : registerAll (r :: rest) st = registerAll rest st := by
          simp [registerAll, create_user_error r.1 r.2 st errs hv]
        rw [hstep]
        exact ih st hst
      · have hstep : registerAll (r :: rest) st =
            registerAll rest ⟨st.fake_db ++ [dbUserOf u r.2]⟩ := by
          simp [registerAll, create_user_ok r.1 r.2 st u hv]
        rw [hstep]
        apply ih
        intro o ho
        rcases List.mem_append.1 ho with ho | ho
        · exact hst o ho
        · rcases List.mem_singleton.1 ho with rfl
          obtain ⟨_, _, hem, _, _⟩ := validate_ok_spec r.1 u hv
          exact ⟨⟨u.username, by simp [dbUserOf, Obj.get]⟩,
            ⟨u.email, by simp [dbUserOf, Obj.get], hem⟩⟩

/-- C5 amended: every record of a store reached by any sequence of
registration requests has a `username` field that is a string (possibly
empty — the code enforces no non-emptiness) and a syntactically valid
`email`. -/
theorem C5_amended_store_invariant (reqs : List (Obj × Nat)) (o : Obj)
    (ho : o ∈ (registerAll reqs ⟨[]⟩).fake_db) :
    (∃ s, o.get "username" = some (Value.vStr s)) ∧
    (∃ e, o.get "email" = some (Value.vStr e) ∧ isEmail e = true) :=
  store_records_wellformed reqs ⟨[]⟩ (by simp) o ho

/-- Witness for the amended C5 at a one-request run. -/
theorem C5_witness :
    (∃ s, Obj.get [("username", Value.vStr "jane"),
        ("email", Value.vStr "jane@example.com"),
        ("full_name", Value.vNull), ("join_date", Value.vTime 0),
        ("hashed_password", Value.vStr "hashed_pw2")] "username"
          = some (Value.vStr s)) ∧
    (∃ e, Obj.get [("username", Value.vStr "jane"),
        ("email", Value.vStr "jane@example.com"),
        ("full_name", Value.vNull), ("join_date", Value.vTime 0),
        ("hashed_password", Value.vStr "hashed_pw2")] "email"
          = some (Value.vStr e) ∧ isEmail e = true) :=
  C5_amended_store_invariant [(janePayload, 0)] _ (by decide)

/-- C6: a successful registration stores, as the last record, `db_user`
whose `hashed_password` is the fixed marker `"hashed_"` prefixed to the
submitted plaintext password; the derivation depends only on the password,
so equal passwords yield equal digests. -/
theorem C6_deterministic_digest (payload : Obj) (now : Nat) (st : ServerState)
    (u : UserCreate) (h : UserCreate.validate payload = Except.ok u) :
    ((create_user payload now st).2).fake_db.getLast? = some (dbUserOf u now) ∧
    (dbUserOf u now).get "hashed_password"
        = some (Value.vStr ("hashed_" ++ u.password)) ∧
    (∀ (w : UserCreate) (t s : Nat), w.password = u.password →
      (dbUserOf w t).get "hashed_password" = (dbUserOf u s).get "hashed_password") := by
  rw [create_user_ok payload now st u h]
  refine ⟨by simp, by simp [dbUserOf, Obj.get], ?_⟩
  intro w t s hpw
  simp [dbUserOf, Obj.get, hpw]

/-- Witness for C6 at the spec's example payload. -/
theorem C6_witness :
    ((create_user johnPayload 7 ⟨[]⟩).2).fake_db.getLast?
        = some (dbUserOf
            ⟨"johndoe", "john@example.com", "securepassword123", some "John Doe"⟩ 7) ∧
    (dbUserOf
        ⟨"johndoe", "john@example.com", "securepassword123", some "John Doe"⟩ 7).get
          "hashed_password"
        = some (Value.vStr ("hashed_" ++ "securepassword123")) ∧
    (∀ (w : UserCreate) (t s : Nat), w.password = "securepassword123" →
      (dbUserOf w t).get "hashed_password"
        = (dbUserOf
            ⟨"johndoe", "john@example.com", "securepassword123", some "John Doe"⟩ s).get
              "hashed_password") :=
  C6_deterministic_digest johnPayload 7 ⟨[]⟩
    ⟨"johndoe", "john@example.com", "securepassword123", some "John Doe"⟩ (by rfl)

/-- C7: `get_all_users` returns the store itself — full contents, insertion
order, no shaping — and every stored record carries its raw
`hashed_password` entry. -/
theorem C7_list_users_raw (st : ServerState) (u : UserCreate) (t : Nat) :
    get_all_users st = (st.fake_db, st) ∧
    ("hashed_password", Value.vStr ("hashed_" ++ u.password)) ∈ dbUserOf u t :=
  ⟨rfl, by simp [dbUserOf]⟩

/-- C8: a payload with valid `username`, `email`, `password` but no
`full_name` is accepted; the response's `full_name` is null and exactly
one record (with `full_name` absent) is appended. -/
theorem C8_optional_full_name (payload : Obj) (now : Nat) (st : ServerState)
    (su se sp : String)
    (hu : payload.get "username" = some (Value.vStr su))
    (he : payload.get "email" = some (Value.vStr se))
    (hem : isEmail se = true)
    (hp : payload.get "password" = some (Value.vStr sp))
    (hf : payload.get "full_name" = none) :
    ∃ body, (create_user payload now st).1 = CreateResult.created body ∧
      body.get "full_name" = some Value.vNull ∧
      ((create_user payload now st).2).fake_db
        = st.fake_db ++ [dbUserOf ⟨su, se, sp, none⟩ now] := by
  rw [create_user_ok payload now st _
    (validate_ok_of_parts payload su se sp hu he hem hp hf)]
  refine ⟨_, rfl, ?_, rfl⟩
  rw [shape_dbUserOf]
  simp [Obj.get]

/-- Witness for C8 at the `full_name`-less payload. -/
theorem C8_witness :
    ∃ body, (create_user janePayload 4 ⟨[]⟩).1 = CreateResult.created body ∧
      body.get "full_name" = some Value.vNull ∧
      ((create_user janePayload 4 ⟨[]⟩).2).fake_db
        = [] ++ [dbUserOf ⟨"jane", "jane@example.com", "pw2", none⟩ 4] :=
  C8_optional_full_name janePayload 4 ⟨[]⟩ "jane" "jane@example.com" "pw2"
    (by rfl) (by rfl) (by decide) (by rfl) (by rfl)

/-- C9: the liveness handler always returns the constant message and never
changes the store, no matter how many times it runs. -/
theorem C9_liveness_pure (st : ServerState) (n : Nat) :
    (root st).1 = [("message", Value.vStr "FastAPI Server is running!")] ∧
    (root st).2 = st ∧
    (fun s => (root s).2)^[n] st = st :=
  ⟨rfl, rfl, Function.iterate_fixed rfl n⟩

/-- C10: an extra unknown field is silently ignored — validation and the
whole registration behave exactly as without it — and the stored record
has exactly the five keys `username`, `email`, `full_name`, `join_date`,
`hashed_password`. -/
theorem C10_unknown_fields_ignored (payload : Obj) (k : String) (v : Value)
    (now : Nat) (st : ServerState) (u : UserCreate)
    (h1 : k ≠ "username") (h2 : k ≠ "email") (h3 : k ≠ "password")
    (h4 : k ≠ "full_name")
    (h : UserCreate.validate payload = Except.ok u) :
    UserCreate.validate (payload ++ [(k, v)]) = Except.ok u ∧
    create_user (payload ++ [(k, v)]) now st = create_user payload now st ∧
    ((create_user (payload ++ [(k, v)]) now st).2).fake_db
        = st.fake_db ++ [dbUserOf u now] ∧
    (dbUserOf u now).map Prod.fst
        = ["username", "email", "full_name", "join_date", "hashed_password"] := by
  have hv := validate_append_unknown payload k v h1 h2 h3 h4
  refine ⟨hv.trans h, by simp [create_user, hv], ?_, by simp [dbUserOf]⟩
  rw [create_user_ok _ now st u (hv.trans h)]

/-- Witness for C10: the example payload extended with an unknown `age`
field. -/
theorem C10_witness :
    UserCreate.validate (johnPayload ++ [("age", Value.vTime 30)])
        = Except.ok
            ⟨"johndoe", "john@example.com", "securepassword123", some "John Doe"⟩ ∧
    create_user (johnPayload ++ [("age", Value.vTime 30)]) 9 ⟨[]⟩
        = create_user johnPayload 9 ⟨[]⟩ ∧
    ((create_user (johnPayload ++ [("age", Value.vTime 30)]) 9 ⟨[]⟩).2).fake_db
        = [] ++ [dbUserOf
            ⟨"johndoe", "john@example.com", "securepassword123", some "John Doe"⟩ 9] ∧
    (dbUserOf
        ⟨"johndoe", "john@example.com", "securepassword123", some "John Doe"⟩ 9).map
          Prod.fst
        = ["username", "email", "full_name", "join_date", "hashed_password"] :=
  C10_unknown_fields_ignored johnPayload "age" (Value.vTime 30) 9 ⟨[]⟩
    ⟨"johndoe", "john@example.com", "securepassword123", some "John Doe"⟩
    (by decide) (by decide) (by decide) (by decide) (by rfl)
